import Mathlib

/-!
Verification of the Logger library (TypeScript) against its specification.

Shallow embedding: the data model (`LogLevel`, `LogEntry`), level parsing
(`parseLogLevel`), the three formatters, the `Logger` class operations
(`log`, `child`, `addTransport`, `removeTransport`) and the dispatch loop
are translated from `src/types.ts`, `src/formatters.ts`, `src/transports.ts`
and `src/logger.ts`.

JavaScript features are modelled explicitly:
  - `undefined`-able fields become `Option`;
  - string truthiness (`entry.context ? ... : ...`) becomes a test against
    the empty string, object truthiness becomes `Option.isSome`;
  - the mutable transport array shared between parent and child loggers
    becomes a reference (an index) into a `Store` of transport lists;
  - a transport's `write` handler is modelled by the list of observable
    actions it performs (throw an exception, push a transport onto the
    logger's array, splice one out), so that exception propagation and
    mutation-during-iteration behaviour of the `for...of` dispatch loop
    can be stated;
  - `Date`s are carried as their eventual ISO-8601 serialization strings.
-/

namespace LoggerTS

/-- Log level enumeration from `types.ts`: lower numeric value = more severe. -/
inductive LogLevel where
  | ERROR
  | WARN
  | INFO
  | DEBUG
  | TRACE
deriving DecidableEq, Repr

/-- Numeric value of a level (`ERROR = 0`, ..., `TRACE = 4`). -/
def LogLevel.toNat : LogLevel → Nat
  | .ERROR => 0
  | .WARN => 1
  | .INFO => 2
  | .DEBUG => 3
  | .TRACE => 4

/-- `LOG_LEVEL_NAMES` from `types.ts`: display names of the levels. -/
def LOG_LEVEL_NAMES : LogLevel → String
  | .ERROR => "ERROR"
  | .WARN => "WARN"
  | .INFO => "INFO"
  | .DEBUG => "DEBUG"
  | .TRACE => "TRACE"

/-- `Object.entries(LOG_LEVEL_NAMES)`: integer-like keys enumerate in
ascending numeric order. -/
def logLevelEntries : List (LogLevel × String) :=
  [(.ERROR, "ERROR"), (.WARN, "WARN"), (.INFO, "INFO"),
   (.DEBUG, "DEBUG"), (.TRACE, "TRACE")]

/-- Model of JavaScript `String.prototype.toUpperCase`: uppercase each
character (kernel-computable, unlike `String.toUpper`). -/
def toUpperCase (s : String) : String := ⟨s.data.map Char.toUpper⟩

/-- `parseLogLevel` from `types.ts`: uppercase the input, find the first
entry of `LOG_LEVEL_NAMES` whose name matches, return its level, else
`null` (here `none`). -/
def parseLogLevel (level : String) : Option LogLevel :=
  let upper := toUpperCase level
  (logLevelEntries.find? (fun p => p.2 = upper)).map (fun p => p.1)

/-- Claim C4: `parseLogLevel` maps any case variant of a canonical level name
to that level and every other string (including "WARNING", "", "0") to
`none`, never to a default level. -/
theorem parseLogLevel_characterization :
    (∀ (s : String) (l : LogLevel),
        parseLogLevel s = some l ↔ toUpperCase s = LOG_LEVEL_NAMES l) ∧
      parseLogLevel "WARNING" = none ∧
      parseLogLevel "" = none ∧
      parseLogLevel "0" = none := by
  refine ⟨fun s l => ⟨fun h => ?_, fun h => ?_⟩, by decide, by decide, by decide⟩
  · unfold parseLogLevel at h
    obtain ⟨pair, hfind, hfst⟩ := Option.map_eq_some'.mp h
    have hp := List.find?_some hfind
    have hmem := List.mem_of_find?_eq_some hfind
    have h2 : pair.2 = toUpperCase s := of_decide_eq_true hp
    rw [← h2, ← hfst]
    fin_cases hmem <;> rfl
  · cases l <;>
      simp_all [parseLogLevel, logLevelEntries, List.find?, LOG_LEVEL_NAMES]

/-- Witness for C4 at concrete inputs. -/
theorem parseLogLevel_characterization_witness :
    parseLogLevel "error" = some LogLevel.ERROR := by
  have h := parseLogLevel_characterization.1 "error" LogLevel.ERROR
  exact h.mpr (by decide)

/-- An `Error` object as the formatters consume it: `name`, `message`,
optional `stack`. -/
structure JsError where
  name : String
  message : String
  stack : Option String
deriving DecidableEq, Repr

/-- A log entry (`LogEntry` from `types.ts`). `timestamp` carries the ISO
serialization of the `Date`; `data` is the `Record<string, unknown>` as an
association list whose values are carried as their JSON serializations. -/
structure LogEntry where
  level : LogLevel
  message : String
  timestamp : String
  context : Option String
  data : Option (List (String × String))
  error : Option JsError
deriving DecidableEq, Repr

/-- Per-call options (`LogOptions` from `types.ts`). -/
structure LogOptions where
  context : Option String
  data : Option (List (String × String))
  error : Option JsError
deriving DecidableEq, Repr

/-- Observable actions a transport's `write` handler may perform, used to
model exception propagation and mutation of the logger's transport array
during dispatch. A handler with an empty action list is a plain sink. -/
inductive TEffect where
  | throwErr
  | pushSink (n : String)
  | removeByName (n : String)
deriving DecidableEq, Repr

/-- A transport as the `Logger` sees it: a `name` and a `write` handler,
the latter modelled by its list of observable actions (`TEffect`). -/
structure Transport where
  name : String
  effects : List TEffect
deriving DecidableEq, Repr

/-- The heap of transport arrays: a `Logger`'s `transports` field is an
index into this store, so that parent and child loggers can alias the
same mutable array as in the source. -/
abbrev Store := List (List Transport)

/-- Dereference a transport-array reference. -/
def Store.getTs (σ : Store) (r : Nat) : List Transport := σ.getD r []

/-- Overwrite the array behind a reference. -/
def Store.setTs (σ : Store) (r : Nat) (ts : List Transport) : Store := σ.set r ts

/-- The `Logger` class fields (`logger.ts`): level threshold, optional
default context, a reference to its (shared, mutable) transport array, and
its formatter (opaque here, identified by an id). -/
structure Logger where
  level : LogLevel
  context : Option String
  transports : Nat
  formatterId : Nat
deriving DecidableEq, Repr

/-- `Array.prototype.findIndex`, with the index of the current element
made explicit: index of the first element satisfying the predicate. -/
def findIndexAux (p : Transport → Bool) : List Transport → Nat → Option Nat
  | [], _ => none
  | t :: ts, i => if p t then some i else findIndexAux p ts (i + 1)

/-- `Logger.removeTransport` body on the raw array: `findIndex` by name
then `splice(index, 1)`; returns whether a removal occurred. -/
def removeTransportArr (ts : List Transport) (n : String) :
    Bool × List Transport :=
  match findIndexAux (fun t => t.name = n) ts 0 with
  | some i => (true, ts.eraseIdx i)
  | none => (false, ts)

/-- Run a `write` handler's actions on the logger's transport array.
Returns the mutated array and whether the handler threw; actions after a
throw do not run. A pushed transport is a plain sink (no actions). -/
def runEffects : List TEffect → List Transport → List Transport × Bool
  | [], ts => (ts, false)
  | .throwErr :: _, ts => (ts, true)
  | .pushSink n :: rest, ts => runEffects rest (ts ++ [⟨n, []⟩])
  | .removeByName n :: rest, ts => runEffects rest (removeTransportArr ts n).2

/-- Result of the dispatch loop: final transport array, names of the
transports whose `write` was invoked (in invocation order), or an aborted
loop when a handler threw (the exception propagates out of `log`).
`fuelOut` is a modelling artifact for unbounded handler-driven growth. -/
inductive DispatchResult where
  | ok (ts : List Transport) (invoked : List String)
  | threw (ts : List Transport) (invoked : List String)
  | fuelOut (ts : List Transport) (invoked : List String)
deriving DecidableEq, Repr

/-- The `for (const transport of this.transports)` loop of `Logger.log`:
the JavaScript array iterator reads the live array — index `i` advances by
one per step and the loop ends once `i` reaches the array's current
length, so handler mutations are visible to the ongoing iteration. -/
def dispatchLoop : Nat → Nat → List Transport → List String → DispatchResult
  | 0, i, ts, inv =>
      if i < ts.length then .fuelOut ts inv else .ok ts inv
  | fuel + 1, i, ts, inv =>
      if h : i < ts.length then
        let t := ts.get ⟨i, h⟩
        match runEffects t.effects ts with
        | (ts2, false) => dispatchLoop fuel (i + 1) ts2 (inv ++ [t.name])
        | (ts2, true) => .threw ts2 (inv ++ [t.name])
      else .ok ts inv

/-- Building the entry in `Logger.log`: `options?.context ?? this.context`
for the context, `data`/`error` copied from the options when present. -/
def buildEntry (L : Logger) (level : LogLevel) (message : String)
    (options : Option LogOptions) (now : String) : LogEntry :=
  { level := level
    message := message
    timestamp := now
    context := (options.bind (fun o => o.context)).orElse (fun _ => L.context)
    data := options.bind (fun o => o.data)
    error := options.bind (fun o => o.error) }

/-- Outcome of a `log` call: filtered out (no entry, no dispatch), or
dispatched with the entry that was built, the invoked transports and
whether a handler's exception escaped to the caller. -/
inductive LogOutcome where
  | skipped
  | dispatched (entry : LogEntry) (invoked : List String) (threw : Bool)
  | fuelOut
deriving DecidableEq, Repr

/-- `Logger.log` from `logger.ts`: return early when `level > this.level`,
else build the entry once and write it to every transport via the live
`for...of` loop. `now` is the `new Date()` value; `fuel` bounds the loop. -/
def Logger.log (σ : Store) (L : Logger) (level : LogLevel) (message : String)
    (options : Option LogOptions) (now : String) (fuel : Nat) :
    Store × LogOutcome :=
  if level.toNat > L.level.toNat then (σ, .skipped)
  else
    let entry := buildEntry L level message options now
    match dispatchLoop fuel 0 (σ.getTs L.transports) [] with
    | .ok ts inv => (σ.setTs L.transports ts, .dispatched entry inv false)
    | .threw ts inv => (σ.setTs L.transports ts, .dispatched entry inv true)
    | .fuelOut ts _ => (σ.setTs L.transports ts, .fuelOut)

/-- `Logger.child`: a new `Logger` copying the level, formatter and the
transport-array reference; the context composes with `:` when the parent
context is truthy (defined and non-empty). -/
def Logger.child (L : Logger) (context : String) : Logger :=
  { level := L.level
    context := some (match L.context with
      | some c => if c = "" then context else c ++ ":" ++ context
      | none => context)
    transports := L.transports
    formatterId := L.formatterId }

/-- `Logger.addTransport`: push onto the shared transport array. -/
def Logger.addTransport (σ : Store) (L : Logger) (t : Transport) : Store :=
  σ.setTs L.transports (σ.getTs L.transports ++ [t])

/-- `Logger.removeTransport`: `findIndex` by name on the shared array,
`splice` out the first match, report whether a removal occurred. -/
def Logger.removeTransport (σ : Store) (L : Logger) (n : String) :
    Bool × Store :=
  let r := removeTransportArr (σ.getTs L.transports) n
  (r.1, σ.setTs L.transports r.2)

/-- Model of `JSON.stringify` string escaping for one character (quote and
backslash; finer escapes are irrelevant to the claims). -/
def jsonEscapeChar (c : Char) : String :=
  if c = '"' then "\\\""
  else if c = '\\' then "\\\\"
  else String.singleton c

/-- Model of `JSON.stringify` applied to a string: quoted, escaped. -/
def jsonStr (s : String) : String :=
  "\"" ++ String.join (s.data.map jsonEscapeChar) ++ "\""

/-- `JSON.stringify` of a `Record<string, unknown>` whose values are
carried as their serializations: keys in insertion order. -/
def jsonStringifyData (d : List (String × String)) : String :=
  "\x7b" ++ String.intercalate "," (d.map (fun p => jsonStr p.1 ++ ":" ++ p.2))
    ++ "\x7d"

/-- The `entry.context ? ... : ""` expression shared by the Simple and
Timestamped formatters: a `[context] ` segment when the context is truthy
(present and non-empty), else nothing. -/
def ctxSegment : Option String → String
  | some c => if c = "" then "" else "[" ++ c ++ "] "
  | none => ""

/-- The shared data suffix: appended only when `entry.data` is present and
`Object.keys(entry.data).length > 0`. -/
def dataSuffix : Option (List (String × String)) → String
  | some d => if 0 < d.length then " " ++ jsonStringifyData d else ""
  | none => ""

/-- The shared error suffix: newline then `stack ?? message`. -/
def errorSuffix : Option JsError → String
  | some e => "\n" ++ e.stack.getD e.message
  | none => ""

/-- `SimpleFormatter.format` from `formatters.ts`:
`[LEVEL] [context] message` plus the optional suffixes. -/
def SimpleFormatter.format (e : LogEntry) : String :=
  "[" ++ LOG_LEVEL_NAMES e.level ++ "] " ++ ctxSegment e.context ++ e.message
    ++ dataSuffix e.data ++ errorSuffix e.error

/-- `TimestampedFormatter.format` from `formatters.ts`:
`[timestamp] [LEVEL] [context] message` plus the optional suffixes. -/
def TimestampedFormatter.format (e : LogEntry) : String :=
  "[" ++ e.timestamp ++ "] [" ++ LOG_LEVEL_NAMES e.level ++ "] "
    ++ ctxSegment e.context ++ e.message ++ dataSuffix e.data
    ++ errorSuffix e.error

/-- `JSON.stringify` of the error object built by `JsonFormatter`
(`stack: undefined` makes `JSON.stringify` omit the key). -/
def jsonStringifyError (e : JsError) : String :=
  "\x7b" ++ "\"name\":" ++ jsonStr e.name ++ ",\"message\":" ++ jsonStr e.message
    ++ (match e.stack with
        | some s => ",\"stack\":" ++ jsonStr s
        | none => "")
    ++ "\x7d"

/-- The object `JsonFormatter.format` builds before serializing, as its
insertion-ordered key/serialized-value list: `level`, `message`,
`timestamp` always; `context` only when truthy (non-empty); `data`
whenever present (`if (entry.data)` — an empty object is truthy); `error`
when present. -/
def JsonFormatter.formatObj (e : LogEntry) : List (String × String) :=
  [("level", jsonStr (LOG_LEVEL_NAMES e.level)),
   ("message", jsonStr e.message),
   ("timestamp", jsonStr e.timestamp)]
  ++ (match e.context with
      | some c => if c = "" then [] else [("context", jsonStr c)]
      | none => [])
  ++ (match e.data with
      | some d => [("data", jsonStringifyData d)]
      | none => [])
  ++ (match e.error with
      | some err => [("error", jsonStringifyError err)]
      | none => [])

/-- `JSON.stringify` of an object given as its insertion-ordered
key/serialized-value list. -/
def jsonStringifyObj (kvs : List (String × String)) : String :=
  "\x7b" ++ String.intercalate "," (kvs.map (fun p => jsonStr p.1 ++ ":" ++ p.2))
    ++ "\x7d"

/-- `JsonFormatter.format` from `formatters.ts`. -/
def JsonFormatter.format (e : LogEntry) : String :=
  jsonStringifyObj (JsonFormatter.formatObj e)

/-- Writing back the value a reference already holds leaves the store
unchanged (also for dangling references, where `set` is a no-op). -/
theorem Store.setTs_getTs_self (σ : Store) (r : Nat) :
    σ.setTs r (σ.getTs r) = σ := by
  induction σ generalizing r with
  | nil => rfl
  | cons a σ ih =>
    cases r with
    | zero => rfl
    | succ r =>
      show a :: Store.setTs σ r (Store.getTs σ r) = a :: σ
      rw [ih r]

/-- Reading back through a valid reference after writing it. -/
theorem Store.getTs_setTs_eq (σ : Store) (r : Nat) (x : List Transport)
    (h : r < σ.length) : (σ.setTs r x).getTs r = x := by
  induction σ generalizing r with
  | nil => simp at h
  | cons a σ ih =>
    cases r with
    | zero => rfl
    | succ r => exact ih r (by simpa using h)

/-- The dispatch loop over an array of plain sinks (no handler actions)
invokes every remaining transport in order and leaves the array as it is. -/
theorem dispatchLoop_pure (fuel : Nat) :
    ∀ (i : Nat) (ts : List Transport) (inv : List String),
      (∀ t ∈ ts, t.effects = []) → ts.length ≤ i + fuel →
      dispatchLoop fuel i ts inv =
        .ok ts (inv ++ (ts.drop i).map Transport.name) := by
  induction fuel with
  | zero =>
    intro i ts inv _ hfuel
    unfold dispatchLoop
    rw [if_neg (by omega), List.drop_eq_nil_of_le (by omega)]
    simp
  | succ n ih =>
    intro i ts inv hpure hfuel
    by_cases hi : i < ts.length
    · unfold dispatchLoop
      rw [dif_pos hi]
      have heff : (ts.get ⟨i, hi⟩).effects = [] :=
        hpure _ (ts.get_mem i hi)
      simp only [heff, runEffects]
      rw [ih (i + 1) ts _ hpure (by omega)]
      have hmap : i < (List.map Transport.name ts).length := by simpa using hi
      rw [List.append_assoc]
      congr 2
      rw [List.map_drop, List.map_drop, List.drop_eq_getElem_cons hmap]
      simp
    · unfold dispatchLoop
      rw [dif_neg hi, List.drop_eq_nil_of_le (by omega)]
      simp

/-- The dispatch loop on an array shaped `pre ++ thrower :: rest`, with
every transport of `pre` a plain sink: the handlers of `pre` and the
thrower are invoked, the throw aborts the loop, nothing after the thrower
runs, and the array is unchanged. -/
theorem dispatchLoop_throw_after_pures (pre : List Transport) :
    ∀ (fuel i : Nat) (ts : List Transport) (inv : List String)
      (t0 : Transport) (rest : List Transport) (es : List TEffect),
      ts.drop i = pre ++ t0 :: rest →
      (∀ t ∈ pre, t.effects = []) →
      t0.effects = .throwErr :: es →
      pre.length < fuel →
      dispatchLoop fuel i ts inv =
        .threw ts (inv ++ pre.map Transport.name ++ [t0.name]) := by
  induction pre with
  | nil =>
    intro fuel i ts inv t0 rest es hdrop _ hth hfuel
    obtain ⟨n, rfl⟩ : ∃ n, fuel = n + 1 := ⟨fuel - 1, by omega⟩
    have hi : i < ts.length := by
      by_contra hge
      rw [List.drop_eq_nil_of_le (by omega)] at hdrop
      simp at hdrop
    have hget : ts.get ⟨i, hi⟩ = t0 := by
      have := List.drop_eq_getElem_cons hi
      rw [hdrop] at this
      simpa using (List.cons.injEq _ _ _ _ ▸ this).1.symm
    unfold dispatchLoop
    rw [dif_pos hi]
    simp only [hget, hth, runEffects]
    simp
  | cons p pre ih =>
    intro fuel i ts inv t0 rest es hdrop hpure hth hfuel
    obtain ⟨n, rfl⟩ : ∃ n, fuel = n + 1 := ⟨fuel - 1, by omega⟩
    have hi : i < ts.length := by
      by_contra hge
      rw [List.drop_eq_nil_of_le (by omega)] at hdrop
      simp at hdrop
    have hcons := List.drop_eq_getElem_cons hi
    rw [hdrop] at hcons
    have hget : ts.get ⟨i, hi⟩ = p := by
      simpa using (List.cons.injEq _ _ _ _ ▸ hcons).1.symm
    have hdrop2 : ts.drop (i + 1) = pre ++ t0 :: rest := by
      simpa using (List.cons.injEq _ _ _ _ ▸ hcons).2.symm
    unfold dispatchLoop
    rw [dif_pos hi]
    have heff : p.effects = [] := hpure p (by simp)
    simp only [hget, heff, runEffects]
    rw [ih n (i + 1) ts _ t0 rest es hdrop2 (fun t ht => hpure t (by simp [ht]))
      hth (by simpa using hfuel)]
    simp

/-- `findIndex` finds nothing when no element satisfies the predicate. -/
theorem findIndexAux_no_match (p : Transport → Bool) :
    ∀ (ts : List Transport) (i : Nat), (∀ t ∈ ts, p t = false) →
      findIndexAux p ts i = none := by
  intro ts
  induction ts with
  | nil => intro i _; rfl
  | cons t ts ih =>
    intro i h
    unfold findIndexAux
    rw [h t (by simp), if_neg (by simp)]
    exact ih (i + 1) (fun u hu => h u (by simp [hu]))

/-- `findIndex` returns the index of the first element satisfying the
predicate. -/
theorem findIndexAux_first (p : Transport → Bool) (pre : List Transport) :
    ∀ (i : Nat) (t : Transport) (post : List Transport),
      (∀ u ∈ pre, p u = false) → p t = true →
      findIndexAux p (pre ++ t :: post) i = some (i + pre.length) := by
  induction pre with
  | nil =>
    intro i t post _ hp
    rw [List.nil_append]
    unfold findIndexAux
    rw [hp]
    simp
  | cons u pre ih =>
    intro i t post hpre hp
    rw [List.cons_append]
    unfold findIndexAux
    rw [hpre u (by simp), if_neg (by simp)]
    rw [ih (i + 1) t post (fun v hv => hpre v (by simp [hv])) hp]
    congr 1
    simp
    omega

/-- `splice(pre.length, 1)` on `pre ++ t :: post` removes exactly `t`. -/
theorem eraseIdx_append_length (pre : List Transport) :
    ∀ (t : Transport) (post : List Transport),
      (pre ++ t :: post).eraseIdx pre.length = pre ++ post := by
  induction pre with
  | nil => intro t post; rfl
  | cons u pre ih =>
    intro t post
    show u :: (pre ++ t :: post).eraseIdx pre.length = u :: (pre ++ post)
    rw [ih t post]

/-- Claim C1: `log(level, message, options)` builds an entry and invokes
`write` on every transport in the logger's list, in list order, iff
`level <= this.level` numerically; otherwise it builds no entry and
touches no transport (store and transports unchanged). Stated for plain
sinks (handlers with no observable actions). -/
theorem log_dispatch_iff_level_le (σ : Store) (L : Logger) (lvl : LogLevel)
    (msg : String) (options : Option LogOptions) (now : String) (fuel : Nat)
    (hpure : ∀ t ∈ σ.getTs L.transports, t.effects = [])
    (hfuel : (σ.getTs L.transports).length ≤ fuel) :
    Logger.log σ L lvl msg options now fuel =
      if lvl.toNat ≤ L.level.toNat then
        (σ, .dispatched (buildEntry L lvl msg options now)
          ((σ.getTs L.transports).map Transport.name) false)
      else (σ, .skipped) := by
  unfold Logger.log
  by_cases hle : lvl.toNat ≤ L.level.toNat
  · rw [if_neg (by omega), if_pos hle,
      dispatchLoop_pure fuel 0 _ [] hpure (by omega)]
    simp [Store.setTs_getTs_self]
  · rw [if_pos (by omega), if_neg hle]

/-- Witness for C1 at a concrete logger: an `INFO`-threshold logger
dispatches an `ERROR` entry to its single transport. -/
theorem log_dispatch_iff_level_le_witness :
    Logger.log [[⟨"t1", []⟩]] ⟨.INFO, none, 0, 0⟩ .ERROR "m" none "ts" 1 =
      ([[⟨"t1", []⟩]],
       .dispatched ⟨.ERROR, "m", "ts", none, none, none⟩ ["t1"] false) := by
  have h := log_dispatch_iff_level_le [[⟨"t1", []⟩]] ⟨.INFO, none, 0, 0⟩
    .ERROR "m" none "ts" 1 (by decide) (by decide)
  simpa [buildEntry] using h

/-- Claim C2 counterexample: with transports `a` (whose write throws) then
`b`, an accepted `log` call lets the exception escape to the caller
(`threw = true`) and never invokes `b`'s write — contradicting the claim
that the exception does not propagate and `b` is still written to. -/
theorem log_write_throws_cex :
    (Logger.log [[⟨"a", [.throwErr]⟩, ⟨"b", []⟩]] ⟨.INFO, none, 0, 0⟩
        .ERROR "boom" none "ts" 2).2 =
      .dispatched ⟨.ERROR, "boom", "ts", none, none, none⟩ ["a"] true ∧
    "b" ∉ (["a"] : List String) := by
  exact ⟨rfl, by decide⟩

/-- Claim C2 (amended): when a transport's write throws during an accepted
`log` call, the exception propagates out of `log` to the caller, and the
transports after the thrower in the list are not written to (exactly the
pure transports before the thrower, then the thrower, are invoked). -/
theorem log_write_throw_propagates (σ : Store) (L : Logger) (lvl : LogLevel)
    (msg : String) (options : Option LogOptions) (now : String) (fuel : Nat)
    (pre : List Transport) (t0 : Transport) (rest : List Transport)
    (es : List TEffect)
    (hts : σ.getTs L.transports = pre ++ t0 :: rest)
    (hpre : ∀ t ∈ pre, t.effects = [])
    (hth : t0.effects = .throwErr :: es)
    (hacc : lvl.toNat ≤ L.level.toNat)
    (hfuel : pre.length < fuel) :
    Logger.log σ L lvl msg options now fuel =
      (σ, .dispatched (buildEntry L lvl msg options now)
        (pre.map Transport.name ++ [t0.name]) true) := by
  unfold Logger.log
  rw [if_neg (by omega),
    dispatchLoop_throw_after_pures pre fuel 0 _ [] t0 rest es (by simpa using hts)
      hpre hth hfuel]
  simp [Store.setTs_getTs_self]

/-- Witness for the amended C2 at a concrete logger. -/
theorem log_write_throw_propagates_witness :
    Logger.log [[⟨"a", [.throwErr]⟩, ⟨"b", []⟩]] ⟨.INFO, none, 0, 0⟩
        .WARN "w" none "ts" 2 =
      ([[⟨"a", [.throwErr]⟩, ⟨"b", []⟩]],
       .dispatched ⟨.WARN, "w", "ts", none, none, none⟩ ["a"] true) := by
  have h := log_write_throw_propagates [[⟨"a", [.throwErr]⟩, ⟨"b", []⟩]]
    ⟨.INFO, none, 0, 0⟩ .WARN "w" none "ts" 2
    [] ⟨"a", [.throwErr]⟩ [⟨"b", []⟩] [] rfl (by decide) rfl (by decide)
    (by decide)
  simpa [buildEntry] using h

/-- Claim C3 counterexample: a single transport `a` whose write handler
appends a transport `b` to the same logger during dispatch; the appended
`b` also receives that very call's entry, so the fan-out is not the
dispatch-time snapshot `["a"]`. -/
theorem log_snapshot_cex :
    (Logger.log [[⟨"a", [.pushSink "b"]⟩]] ⟨.INFO, none, 0, 0⟩
        .ERROR "m" none "ts" 2).2 =
      .dispatched ⟨.ERROR, "m", "ts", none, none, none⟩ ["a", "b"] false ∧
    (["a", "b"] : List String) ≠ ["a"] := by
  exact ⟨rfl, by decide⟩

/-- Claim C3 (amended): dispatch iterates the live transport array, not a
snapshot; handlers that mutate the list during dispatch do affect that
call's fan-out (see the counterexample, where an appended transport
receives the entry). When no handler mutates the list, the receivers are
exactly the transports present when dispatch begins, in order, and the
array is left unchanged. -/
theorem log_dispatch_unmutated_fanout (σ : Store) (L : Logger)
    (lvl : LogLevel) (msg : String) (options : Option LogOptions)
    (now : String) (fuel : Nat)
    (hpure : ∀ t ∈ σ.getTs L.transports, t.effects = [])
    (hacc : lvl.toNat ≤ L.level.toNat)
    (hfuel : (σ.getTs L.transports).length ≤ fuel) :
    Logger.log σ L lvl msg options now fuel =
      (σ, .dispatched (buildEntry L lvl msg options now)
        ((σ.getTs L.transports).map Transport.name) false) := by
  unfold Logger.log
  rw [if_neg (by omega), dispatchLoop_pure fuel 0 _ [] hpure (by omega)]
  simp [Store.setTs_getTs_self]

/-- Witness for the amended C3 at a concrete logger with two pure sinks. -/
theorem log_dispatch_unmutated_fanout_witness :
    Logger.log [[⟨"a", []⟩, ⟨"b", []⟩]] ⟨.INFO, none, 0, 0⟩
        .INFO "m" none "ts" 5 =
      ([[⟨"a", []⟩, ⟨"b", []⟩]],
       .dispatched ⟨.INFO, "m", "ts", none, none, none⟩ ["a", "b"] false) := by
  have h := log_dispatch_unmutated_fanout [[⟨"a", []⟩, ⟨"b", []⟩]]
    ⟨.INFO, none, 0, 0⟩ .INFO "m" none "ts" 5 (by decide) (by decide)
    (by decide)
  simpa [buildEntry] using h

/-- Claim C5 counterexample: a parent whose context is the empty string
*has* a context, yet `child("B")` yields context `"B"`, not
`"" + ":" + "B" = ":B"` — the source composes with `:` only when the
parent context is truthy (non-empty), not merely defined. -/
theorem child_context_empty_parent_cex :
    (Logger.child ⟨.INFO, some "", 0, 0⟩ "B").context = some "B" ∧
      ("B" : String) ≠ "" ++ ":" ++ "B" := by
  exact ⟨rfl, by decide⟩

/-- Claim C5 (amended): for a non-empty segment `s`, `child(s)` is a new
logger with the parent's level, formatter and transport-array reference
(so a transport added to the parent afterwards is visible through the
child), and context `parent.context + ":" + s` when the parent context is
defined and non-empty, else exactly `s` (an empty-string parent context
composes as if absent). -/
theorem child_logger_spec (L : Logger) (s : String) (_hs : s ≠ "") :
    (L.child s).level = L.level ∧
    (L.child s).transports = L.transports ∧
    (L.child s).formatterId = L.formatterId ∧
    (L.context = none → (L.child s).context = some s) ∧
    (L.context = some "" → (L.child s).context = some s) ∧
    (∀ c, L.context = some c → c ≠ "" →
      (L.child s).context = some (c ++ ":" ++ s)) ∧
    (∀ (σ : Store) (t : Transport), L.transports < σ.length →
      Store.getTs (Logger.addTransport σ L t) (L.child s).transports =
        Store.getTs σ L.transports ++ [t]) := by
  refine ⟨rfl, rfl, rfl, ?_, ?_, ?_, ?_⟩
  · intro h
    simp [Logger.child, h]
  · intro h
    simp [Logger.child, h]
  · intro c h hc
    simp [Logger.child, h, hc]
  · intro σ t hr
    show Store.getTs (Logger.addTransport σ L t) L.transports = _
    unfold Logger.addTransport
    exact Store.getTs_setTs_eq σ L.transports _ hr

/-- Witness for the amended C5 at a concrete parent with context "A". -/
theorem child_logger_spec_witness :
    (Logger.child ⟨.INFO, some "A", 0, 0⟩ "B").context = some "A:B" := by
  have h := (child_logger_spec ⟨.INFO, some "A", 0, 0⟩ "B"
    (by decide)).2.2.2.2.2.1 "A" rfl (by decide)
  simpa using h

/-- Claim C6: `removeTransport(name)` removes exactly the first transport
with that name and returns `true`, leaving earlier non-matching and later
transports (including later duplicates of the name) in place and in
order; with no match it returns `false` and leaves the list unchanged. -/
theorem removeTransport_first_match (σ : Store) (L : Logger) (n : String) :
    ((∀ t ∈ σ.getTs L.transports, t.name ≠ n) →
      Logger.removeTransport σ L n = (false, σ)) ∧
    (∀ (pre : List Transport) (t : Transport) (post : List Transport),
      σ.getTs L.transports = pre ++ t :: post → t.name = n →
      (∀ u ∈ pre, u.name ≠ n) →
      Logger.removeTransport σ L n =
        (true, σ.setTs L.transports (pre ++ post))) := by
  constructor
  · intro h
    unfold Logger.removeTransport removeTransportArr
    rw [findIndexAux_no_match _ _ 0 (fun t ht => by simp [h t ht])]
    simp [Store.setTs_getTs_self]
  · intro pre t post hts htn hpre
    unfold Logger.removeTransport removeTransportArr
    rw [hts, findIndexAux_first _ pre 0 t post
      (fun u hu => by simp [hpre u hu]) (by simp [htn])]
    simp only [Nat.zero_add]
    rw [eraseIdx_append_length pre t post]

/-- Witness for C6: removing "x" from `[x, y, x]` removes only the first
`x`; removing a missing name returns `false` and changes nothing. -/
theorem removeTransport_first_match_witness :
    Logger.removeTransport [[⟨"x", []⟩, ⟨"y", []⟩, ⟨"x", []⟩]]
        ⟨.INFO, none, 0, 0⟩ "x" =
      (true, [[⟨"y", []⟩, ⟨"x", []⟩]]) ∧
    Logger.removeTransport [[⟨"x", []⟩, ⟨"y", []⟩, ⟨"x", []⟩]]
        ⟨.INFO, none, 0, 0⟩ "z" =
      (false, [[⟨"x", []⟩, ⟨"y", []⟩, ⟨"x", []⟩]]) := by
  constructor
  · have h := (removeTransport_first_match
      [[⟨"x", []⟩, ⟨"y", []⟩, ⟨"x", []⟩]] ⟨.INFO, none, 0, 0⟩ "x").2
      [] ⟨"x", []⟩ [⟨"y", []⟩, ⟨"x", []⟩] rfl rfl (by decide)
    simpa using h
  · exact (removeTransport_first_match
      [[⟨"x", []⟩, ⟨"y", []⟩, ⟨"x", []⟩]] ⟨.INFO, none, 0, 0⟩ "z").1
      (by decide)

/-- Claim C7: per-call options never mutate the logger. In this embedding
`log` takes the `Logger` record immutably (the source never assigns to
`this.level`, `this.context`, `this.transports` or `this.formatter` in
`log`), so the claim says: the shared transport array is unchanged by the
call, the produced entry carries the per-call `context`/`data`/`error`
in place of the defaults, and a subsequent optionless call on the same
logger carries the original default context again. -/
theorem log_options_do_not_mutate (σ : Store) (L : Logger) (lvl : LogLevel)
    (msg msg2 c1 : String) (d : Option (List (String × String)))
    (err : Option JsError) (now now2 : String) (fuel : Nat)
    (hpure : ∀ t ∈ σ.getTs L.transports, t.effects = [])
    (hacc : lvl.toNat ≤ L.level.toNat)
    (hfuel : (σ.getTs L.transports).length ≤ fuel) :
    (Logger.log σ L lvl msg (some ⟨some c1, d, err⟩) now fuel).1 = σ ∧
    (Logger.log σ L lvl msg (some ⟨some c1, d, err⟩) now fuel).2 =
      .dispatched ⟨lvl, msg, now, some c1, d, err⟩
        ((σ.getTs L.transports).map Transport.name) false ∧
    (Logger.log (Logger.log σ L lvl msg (some ⟨some c1, d, err⟩) now fuel).1
        L lvl msg2 none now2 fuel).2 =
      .dispatched ⟨lvl, msg2, now2, L.context, none, none⟩
        ((σ.getTs L.transports).map Transport.name) false := by
  have h1 : Logger.log σ L lvl msg (some ⟨some c1, d, err⟩) now fuel =
      (σ, .dispatched ⟨lvl, msg, now, some c1, d, err⟩
        ((σ.getTs L.transports).map Transport.name) false) := by
    unfold Logger.log
    rw [if_neg (by omega), dispatchLoop_pure fuel 0 _ [] hpure (by omega)]
    simp [Store.setTs_getTs_self, buildEntry, Option.orElse]
  refine ⟨by rw [h1], by rw [h1], ?_⟩
  rw [h1]
  unfold Logger.log
  rw [if_neg (by omega), dispatchLoop_pure fuel 0 _ [] hpure (by omega)]
  simp [Store.setTs_getTs_self, buildEntry, Option.orElse]

/-- Witness for C7 at a concrete logger with default context "D" and a
per-call override "O". -/
theorem log_options_do_not_mutate_witness :
    (Logger.log [[⟨"t", []⟩]] ⟨.INFO, some "D", 0, 0⟩ .INFO "m"
        (some ⟨some "O", none, none⟩) "ts" 1).2 =
      .dispatched ⟨.INFO, "m", "ts", some "O", none, none⟩ ["t"] false ∧
    (Logger.log (Logger.log [[⟨"t", []⟩]] ⟨.INFO, some "D", 0, 0⟩ .INFO "m"
        (some ⟨some "O", none, none⟩) "ts" 1).1
        ⟨.INFO, some "D", 0, 0⟩ .INFO "m2" none "ts2" 1).2 =
      .dispatched ⟨.INFO, "m2", "ts2", some "D", none, none⟩ ["t"] false := by
  have h := log_options_do_not_mutate [[⟨"t", []⟩]] ⟨.INFO, some "D", 0, 0⟩
    .INFO "m" "m2" "O" none none "ts" "ts2" 1 (by decide) (by decide)
    (by decide)
  exact ⟨by simpa using h.2.1, by simpa using h.2.2⟩

/-- Claim C8: an entry whose `data` is a present-but-empty mapping formats
under Simple and Timestamped exactly like an entry with no `data` at all
(no data suffix), while `JsonFormatter`'s object carries a `data` key
whose value is the empty JSON object. -/
theorem formatters_empty_data (e : LogEntry) (h : e.data = some []) :
    SimpleFormatter.format e =
      SimpleFormatter.format { e with data := none } ∧
    TimestampedFormatter.format e =
      TimestampedFormatter.format { e with data := none } ∧
    ("data", jsonStringifyData []) ∈ JsonFormatter.formatObj e ∧
    jsonStringifyData [] = "\x7b\x7d" := by
  refine ⟨?_, ?_, ?_, rfl⟩
  · simp [SimpleFormatter.format, dataSuffix, h]
  · simp [TimestampedFormatter.format, dataSuffix, h]
  · simp [JsonFormatter.formatObj, h]

/-- Witness for C8 at a concrete entry with an empty data mapping. -/
theorem formatters_empty_data_witness :
    SimpleFormatter.format ⟨.INFO, "m", "ts", none, some [], none⟩ =
      SimpleFormatter.format ⟨.INFO, "m", "ts", none, none, none⟩ ∧
    ("data", jsonStringifyData []) ∈
      JsonFormatter.formatObj ⟨.INFO, "m", "ts", none, some [], none⟩ := by
  have h := formatters_empty_data ⟨.INFO, "m", "ts", none, some [], none⟩ rfl
  exact ⟨h.1, h.2.2.1⟩

/-- Which built-in formatter a transport was constructed with. -/
inductive FormatterKind where
  | simple
  | timestamped
  | json
deriving DecidableEq, Repr

/-- `format` dispatch for the built-in formatters. -/
def FormatterKind.format : FormatterKind → LogEntry → String
  | .simple => SimpleFormatter.format
  | .timestamped => TimestampedFormatter.format
  | .json => JsonFormatter.format

/-- The JavaScript runtime exception relevant here: calling a value that
is not a function. -/
inductive JsException where
  | typeError
deriving DecidableEq, Repr

/-- `CallbackTransportOptions`: the callback is carried as an `Option` so
that a caller omitting it (past the type checker, e.g. from JavaScript)
is representable; the callback function itself is opaque. -/
structure CallbackTransportOptions where
  callback : Option Unit
  formatter : Option FormatterKind
deriving DecidableEq, Repr

/-- The fields of a constructed `CallbackTransport`. -/
structure CallbackTransportObj where
  name : String
  callback : Option Unit
  formatter : FormatterKind
deriving DecidableEq, Repr

/-- The `CallbackTransport` constructor body from `transports.ts`: it only
assigns `this.callback = options.callback` and defaults the formatter —
it contains no validation and cannot throw, hence is total (`Except` is
the channel on which a construction-time failure would appear). -/
def CallbackTransport.construct (o : CallbackTransportOptions) :
    Except JsException CallbackTransportObj :=
  .ok ⟨"callback", o.callback, o.formatter.getD .simple⟩

/-- `CallbackTransport.write`: format the entry, then invoke the callback
with the entry and the formatted string; when the stored callback is
absent, the call `this.callback(...)` raises a `TypeError` here, at the
first write. -/
def CallbackTransportObj.write (t : CallbackTransportObj) (e : LogEntry) :
    Except JsException (LogEntry × String) :=
  let formatted := t.formatter.format e
  match t.callback with
  | none => .error .typeError
  | some _ => .ok (e, formatted)

/-- Claim C9 counterexample: constructing a `CallbackTransport` from
options with no callback succeeds (no error is signalled at construction
time), and the failure instead surfaces at the first `write`. -/
theorem callbackTransport_construct_cex :
    CallbackTransport.construct ⟨none, none⟩ =
      .ok ⟨"callback", none, .simple⟩ ∧
    CallbackTransportObj.write ⟨"callback", none, .simple⟩
        ⟨.INFO, "m", "ts", none, none, none⟩ = .error .typeError := by
  exact ⟨rfl, rfl⟩

/-- Claim C9 (amended): the `CallbackTransport` constructor performs no
validation — for every options value lacking a callback it succeeds,
storing no callback, and every subsequent `write` call on the constructed
transport fails with a `TypeError` (the failure is deferred to the first
write, not signalled at construction). -/
theorem callbackTransport_no_construction_check
    (o : CallbackTransportOptions) (h : o.callback = none) :
    CallbackTransport.construct o =
      .ok ⟨"callback", none, o.formatter.getD .simple⟩ ∧
    (∀ t, CallbackTransport.construct o = .ok t →
      ∀ e, t.write e = .error .typeError) := by
  constructor
  · unfold CallbackTransport.construct
    rw [h]
  · intro t ht e
    unfold CallbackTransport.construct at ht
    cases ht
    unfold CallbackTransportObj.write
    rw [h]

/-- Witness for the amended C9 at concrete options and entry. -/
theorem callbackTransport_no_construction_check_witness :
    CallbackTransport.construct ⟨none, some .json⟩ =
      .ok ⟨"callback", none, .json⟩ ∧
    CallbackTransportObj.write ⟨"callback", none, .json⟩
        ⟨.WARN, "w", "ts", none, none, none⟩ = .error .typeError := by
  have h := callbackTransport_no_construction_check ⟨none, some .json⟩ rfl
  exact ⟨by simpa using h.1, h.2 ⟨"callback", none, .json⟩ (by simpa using h.1)
    ⟨.WARN, "w", "ts", none, none, none⟩⟩

/-- Claim C10: on a logger with no context, `child("")` has context `""`;
entries logged through it carry context `""`, and all three formatters
render such an entry exactly as if the context were absent: the text
formatters omit the `[context] ` segment and the JSON formatter omits the
`context` key. -/
theorem child_empty_segment_blank_context (σ : Store) (L : Logger)
    (lvl : LogLevel) (msg now : String) (fuel : Nat)
    (hctx : L.context = none)
    (hacc : lvl.toNat ≤ L.level.toNat)
    (hpure : ∀ t ∈ σ.getTs L.transports, t.effects = [])
    (hfuel : (σ.getTs L.transports).length ≤ fuel) :
    (L.child "").context = some "" ∧
    Logger.log σ (L.child "") lvl msg none now fuel =
      (σ, .dispatched ⟨lvl, msg, now, some "", none, none⟩
        ((σ.getTs L.transports).map Transport.name) false) ∧
    (∀ e : LogEntry, e.context = some "" →
      SimpleFormatter.format e =
        SimpleFormatter.format { e with context := none } ∧
      TimestampedFormatter.format e =
        TimestampedFormatter.format { e with context := none } ∧
      JsonFormatter.format e =
        JsonFormatter.format { e with context := none }) := by
  have hchild : L.child "" = ⟨L.level, some "", L.transports, L.formatterId⟩ := by
    simp [Logger.child, hctx]
  refine ⟨by rw [hchild], ?_, ?_⟩
  · rw [hchild]
    unfold Logger.log
    rw [if_neg (by change ¬ lvl.toNat > L.level.toNat; omega),
      dispatchLoop_pure fuel 0 _ [] hpure (by omega)]
    simp [Store.setTs_getTs_self, buildEntry, Option.orElse]
  · intro e he
    refine ⟨?_, ?_, ?_⟩
    · simp [SimpleFormatter.format, ctxSegment, he]
    · simp [TimestampedFormatter.format, ctxSegment, he]
    · simp [JsonFormatter.format, JsonFormatter.formatObj, he]

/-- Witness for C10 at a concrete logger and entry. -/
theorem child_empty_segment_blank_context_witness :
    (Logger.child ⟨.INFO, none, 0, 0⟩ "").context = some "" ∧
    Logger.log [[⟨"t", []⟩]] (Logger.child ⟨.INFO, none, 0, 0⟩ "")
        .INFO "m" none "ts" 1 =
      ([[⟨"t", []⟩]],
       .dispatched ⟨.INFO, "m", "ts", some "", none, none⟩ ["t"] false) ∧
    SimpleFormatter.format ⟨.INFO, "m", "ts", some "", none, none⟩ =
      SimpleFormatter.format ⟨.INFO, "m", "ts", none, none, none⟩ := by
  have h := child_empty_segment_blank_context [[⟨"t", []⟩]]
    ⟨.INFO, none, 0, 0⟩ .INFO "m" "ts" 1 rfl (by decide) (by decide)
    (by decide)
  exact ⟨h.1, by simpa using h.2.1,
    (h.2.2 ⟨.INFO, "m", "ts", some "", none, none⟩ rfl).1⟩

end LoggerTS
